import Mathlib

/-!
Verification of the terra.backend.crud map-style resolution and display-schema
pipeline, shallowly embedded from the repository sources:
  * terra_geocrud/utils.py        (get_default_style, base renderer skeleton)
  * terra_geocrud/views.py        (CrudRenderTemplateDetailView.get_style,
                                   CrudRenderTemplateDetailView.get_context_data)
  * terra_crud/models.py          (CrudGroupView / CrudView with the PROTECT
                                   foreign key from views to groups)
Pieces of the repository that are referenced but whose defining module is not
among the sources (the terra_geocrud models/serializers holding
map_style_with_default, mblg_renderer_style, the grouped UI-schema transform,
display_properties grouping and create/update property un-grouping, and the
terra_geocrud settings module) are modelled from the specification; each such
definition carries a doc comment starting with "Modelled from the spec:".

Python semantics notes used throughout:
  * a Python function that falls through every `if`/`elif` arm and then reads
    the never-assigned local (`return response`) raises UnboundLocalError; we
    embed fallible computations in `Except PyErr`;
  * `dict.get` returns `None` on a missing key, embedded as `Option`;
  * subscript-assignment on `None` raises, embedded as `PyErr.noneSubscript`;
  * Python dictionaries preserve insertion order and `update` overwrites the
    value of an existing key in place, embedded by `dictUpdate` on association
    lists;
  * Python objects are references: stamping `layer['id'] = ...` on the dict
    returned by `get_default_style` mutates the module-level settings entry
    itself.  We embed this heap effect explicitly: the configured style table
    is threaded through `get_style` as state, and layers taken from the table
    are recorded as references (`LayerRef.defaultRef`) resolved against the
    final state, exactly as the shared dict would read at the end of the call.
-/

/-- Geometry kinds distinguished by the resolver.  `geometrycollection` stands
for any geostore geometry type that is neither point-like, linestring-like nor
polygon-like, the explicit unhandled case of `get_default_style`. -/
inductive GeomKind where
  | point
  | linestring
  | polygon
  | geometrycollection
deriving DecidableEq, Repr

/-- A geostore layer as seen by the resolver: only its geometry-kind
classification is consulted (`is_point` / `is_linestring` / `is_polygon`). -/
structure Layer where
  geom_kind : GeomKind
deriving DecidableEq, Repr

def Layer.is_point (l : Layer) : Bool := l.geom_kind == GeomKind.point

def Layer.is_linestring (l : Layer) : Bool := l.geom_kind == GeomKind.linestring

def Layer.is_polygon (l : Layer) : Bool := l.geom_kind == GeomKind.polygon

/-- Errors surfaced by the embedded Python code. -/
inductive PyErr where
  | unboundLocal
  | noneSubscript
deriving DecidableEq, Repr

/-- A map-style layer fragment: the `id` and `source` fields that the style
composition stamps, plus the remaining fields (`type`, `paint`, ...) kept as an
opaque ordered key/value payload. -/
structure StyleLayer where
  id : Option String := none
  source : Option String := none
  payload : List (String × String) := []
deriving DecidableEq, Repr

instance : Inhabited StyleLayer := ⟨{}⟩

/-- The configured default-style table `TERRA_GEOCRUD['STYLES']`, keyed
`point` / `line` / `polygon`; each entry is optional because `dict.get`
returns `None` for a missing key. -/
structure StyleTable where
  point : Option StyleLayer
  line : Option StyleLayer
  polygon : Option StyleLayer
deriving DecidableEq, Repr

/-- Embeds `terra_geocrud/utils.py::get_default_style`:

    def get_default_style(layer):
        style_settings = app_settings.TERRA_GEOCRUD.get('STYLES', {})
        if layer.is_point:
            response = style_settings.get('point')
        elif layer.is_linestring:
            response = style_settings.get('line')
        elif layer.is_polygon:
            response = style_settings.get('polygon')
        return response

If no branch assigns `response`, the final `return response` raises
UnboundLocalError.  The style table is passed explicitly. -/
def get_default_style (styles : StyleTable) (layer : Layer) :
    Except PyErr (Option StyleLayer) :=
  if layer.is_point then Except.ok styles.point
  else if layer.is_linestring then Except.ok styles.line
  else if layer.is_polygon then Except.ok styles.polygon
  else Except.error PyErr.unboundLocal

/-- Modelled from the spec: the configured default style for point layers.
The settings module defining `TERRA_GEOCRUD['STYLES']` is not among the
sources; the repository tests exhibit this entry as a circle style. -/
def point_default_style : StyleLayer :=
  { payload := [("type", "circle"),
                ("paint.circle-color", "#000"),
                ("paint.circle-radius", "8")] }

/-- Modelled from the spec: the configured default style for line layers,
exhibited by the repository tests as a line style. -/
def line_default_style : StyleLayer :=
  { payload := [("type", "line"),
                ("paint.line-color", "#000"),
                ("paint.line-width", "3")] }

/-- Modelled from the spec: the configured default style for polygon layers
(a fill style; the tests reference `STYLES['polygon']` without exhibiting its
fields, which no claim depends on). -/
def polygon_default_style : StyleLayer :=
  { payload := [("type", "fill"),
                ("paint.fill-color", "#000")] }

/-- Modelled from the spec: the statically configured style table
`TERRA_GEOCRUD['STYLES']` (external configuration; its settings module is not
among the sources).  It carries an entry for each of the three recognized
geometry kinds, as the repository tests require. -/
def TERRA_GEOCRUD_STYLES : StyleTable :=
  { point := some point_default_style,
    line := some line_default_style,
    polygon := some polygon_default_style }

/-- claim C1: for every layer whose geometry kind is point, line, or polygon,
`get_default_style` returns exactly the entry for that kind in the configured
style table (and that entry is present); for every layer whose kind is
unrecognized — hence has no configured entry — `get_default_style` raises
(UnboundLocalError) rather than returning `None`. -/
theorem get_default_style_configured_table (l : Layer) :
    (l.is_point = true →
      get_default_style TERRA_GEOCRUD_STYLES l = Except.ok (some point_default_style)) ∧
    (l.is_linestring = true →
      get_default_style TERRA_GEOCRUD_STYLES l = Except.ok (some line_default_style)) ∧
    (l.is_polygon = true →
      get_default_style TERRA_GEOCRUD_STYLES l = Except.ok (some polygon_default_style)) ∧
    (l.is_point = false → l.is_linestring = false → l.is_polygon = false →
      get_default_style TERRA_GEOCRUD_STYLES l = Except.error PyErr.unboundLocal) := by
  cases l with
  | mk k => cases k <;> simp [get_default_style, Layer.is_point, Layer.is_linestring,
      Layer.is_polygon, TERRA_GEOCRUD_STYLES]

/-- Witness for claim C1, instantiating each geometry kind concretely. -/
theorem get_default_style_configured_table_witness :
    get_default_style TERRA_GEOCRUD_STYLES ⟨GeomKind.point⟩ =
      Except.ok (some point_default_style) ∧
    get_default_style TERRA_GEOCRUD_STYLES ⟨GeomKind.linestring⟩ =
      Except.ok (some line_default_style) ∧
    get_default_style TERRA_GEOCRUD_STYLES ⟨GeomKind.polygon⟩ =
      Except.ok (some polygon_default_style) ∧
    get_default_style TERRA_GEOCRUD_STYLES ⟨GeomKind.geometrycollection⟩ =
      Except.error PyErr.unboundLocal :=
  ⟨(get_default_style_configured_table ⟨GeomKind.point⟩).1 rfl,
   (get_default_style_configured_table ⟨GeomKind.linestring⟩).2.1 rfl,
   (get_default_style_configured_table ⟨GeomKind.polygon⟩).2.2.1 rfl,
   (get_default_style_configured_table ⟨GeomKind.geometrycollection⟩).2.2.2 rfl rfl rfl⟩

/-- A geometry value: its vertex coordinates (embedded over `Int`; the claims
under verification depend only on coordinate comparisons and joins, not on
floating-point representation).  Every constructor carries at least one
coordinate, as every non-empty GEOS geometry does. -/
inductive Geometry where
  | point (x y : Int)
  | line (c0 : Int × Int) (cs : List (Int × Int))
  | polygon (c0 : Int × Int) (cs : List (Int × Int))
deriving DecidableEq, Repr

/-- First vertex of a geometry (total: every geometry has one). -/
def Geometry.headCoord : Geometry → Int × Int
  | Geometry.point x y => (x, y)
  | Geometry.line c _ => c
  | Geometry.polygon c _ => c

/-- Remaining vertices of a geometry. -/
def Geometry.tailCoords : Geometry → List (Int × Int)
  | Geometry.point _ _ => []
  | Geometry.line _ cs => cs
  | Geometry.polygon _ cs => cs

/-- All vertices of a geometry. -/
def Geometry.coords (g : Geometry) : List (Int × Int) :=
  g.headCoord :: g.tailCoords

/-- Embeds `list(geom.centroid)` as used by `get_context_data`: for a point it
is the point's own `[x, y]`.  The code only evaluates it on the branch where
the feature's layer is point-kind, and the feature store guarantees a feature's
geometry matches its layer's kind, so the non-point cases (where GEOS would
compute a weighted centroid) are never reached; they are embedded as `[]` and
excluded by that store invariant, carried as a hypothesis where needed. -/
def Geometry.centroidList : Geometry → List Int
  | Geometry.point x y => [x, y]
  | Geometry.line _ _ => []
  | Geometry.polygon _ _ => []

/-- A style-document source: the configured raster base tile source, or a
GeoJSON source holding one geometry (the parsed `loads(geom.geojson)`). -/
inductive SourceDef where
  | raster (tiles : List String) (tileSize : Int)
  | geojson (data : Geometry)
deriving DecidableEq, Repr

/-- Python `dict` update for one key on an insertion-ordered association list:
overwrite in place if the key is present, append otherwise. -/
def dictUpdate {α : Type} (m : List (String × α)) (k : String) (v : α) :
    List (String × α) :=
  if m.any (fun p => p.1 == k) then
    m.map (fun p => if p.1 == k then (k, v) else p)
  else m ++ [(k, v)]

/-- A composed map-style document: version, insertion-ordered source mapping,
ordered layer sequence. -/
structure StyleDoc where
  version : Int
  sources : List (String × SourceDef)
  layers : List StyleLayer
deriving DecidableEq, Repr

/-- An `ExtraLayerStyle` row scoped to the current view: the per-view style
override for one extra-geometry definition, identified by that definition's
name.  `map_style` is `none` when the row's JSON fragment is the empty dict. -/
structure ExtraLayerStyleRow where
  layer_extra_geom_name : String
  map_style : Option StyleLayer
deriving DecidableEq, Repr

/-- The view configuration consulted by the style resolver: the view's own
`map_style` override (`none` = empty dict, the JSONField default) and its
`ExtraLayerStyle` rows. -/
structure CrudView where
  map_style : Option StyleLayer
  extra_styles : List ExtraLayerStyleRow
deriving DecidableEq, Repr

/-- An extra-geometry definition attached to a layer: a name and its own
geometry kind. -/
structure LayerExtraGeom where
  name : String
  geom_kind : GeomKind
deriving DecidableEq, Repr

/-- An extra-geometry instance attached to a feature. -/
structure ExtraFeature where
  layer_extra_geom : LayerExtraGeom
  geom : Geometry
deriving DecidableEq, Repr

/-- A feature: its layer, primary geometry, and attached extra geometries in
attachment order. -/
structure Feature where
  layer : Layer
  geom : Geometry
  extra_geometries : List ExtraFeature
deriving DecidableEq, Repr

/-- Embeds the stamping `layer['id'] = name; layer['source'] = name` performed
by `get_style` on a style fragment. -/
def stamp (l : StyleLayer) (name : String) : StyleLayer :=
  { l with id := some name, source := some name }

/-- Embeds the queryset condition of views.py line 122-126:
`extra_style = extra_feature.layer_extra_geom.style.filter(crud_view=view)`
followed by `if extra_style and extra_style.first().map_style`: the override
is used only when a row exists for this (extra geometry, view) pair and its
fragment is non-empty. -/
def extraOverride (view : CrudView) (name : String) : Option StyleLayer :=
  match view.extra_styles.find? (fun r => r.layer_extra_geom_name == name) with
  | some row => row.map_style
  | none => none

/-- Reads the configured style table at a geometry kind (the dict entry that
`get_default_style` returns for that kind). -/
def tableGet (styles : StyleTable) : GeomKind → Option StyleLayer
  | GeomKind.point => styles.point
  | GeomKind.linestring => styles.line
  | GeomKind.polygon => styles.polygon
  | GeomKind.geometrycollection => none

/-- Writes the configured style table at a geometry kind: the heap effect of
mutating, in place, the dict that `get_default_style` returned. -/
def tableSet (styles : StyleTable) (k : GeomKind) (v : StyleLayer) : StyleTable :=
  match k with
  | GeomKind.point => { styles with point := some v }
  | GeomKind.linestring => { styles with line := some v }
  | GeomKind.polygon => { styles with polygon := some v }
  | GeomKind.geometrycollection => styles

/-- A layer appended to the composed document: either a fresh dict (override
fragments come from freshly fetched rows or the view's own `map_style`) or a
reference alias of the configured table's entry for a kind, whose observed
value is the entry's state at the end of the call. -/
inductive LayerRef where
  | value (l : StyleLayer)
  | defaultRef (k : GeomKind)
deriving DecidableEq, Repr

/-- Reads a layer reference against the final table state. -/
def resolveRef (styles : StyleTable) : LayerRef → StyleLayer
  | LayerRef.value l => l
  | LayerRef.defaultRef k => (tableGet styles k).getD default

/-- Embeds the extra-geometry loop of `get_style` (views.py lines 120-132),
threading the source mapping, the appended layer references, and the shared
style table (mutated in place when a default fragment is stamped). -/
def processExtras (view : CrudView) (sources : List (String × SourceDef))
    (refs : List LayerRef) (styles : StyleTable) :
    List ExtraFeature →
      Except PyErr (List (String × SourceDef) × List LayerRef × StyleTable)
  | [] => Except.ok (sources, refs, styles)
  | e :: rest =>
    match extraOverride view e.layer_extra_geom.name with
    | some ov =>
        processExtras view
          (dictUpdate sources e.layer_extra_geom.name (SourceDef.geojson e.geom))
          (refs ++ [LayerRef.value (stamp ov e.layer_extra_geom.name)]) styles rest
    | none =>
        match get_default_style styles ⟨e.layer_extra_geom.geom_kind⟩ with
        | Except.error err => Except.error err
        | Except.ok none => Except.error PyErr.noneSubscript
        | Except.ok (some entry) =>
            processExtras view
              (dictUpdate sources e.layer_extra_geom.name (SourceDef.geojson e.geom))
              (refs ++ [LayerRef.defaultRef e.layer_extra_geom.geom_kind])
              (tableSet styles e.layer_extra_geom.geom_kind
                (stamp entry e.layer_extra_geom.name)) rest

/-- Shared tail of `get_style` after the primary fragment has been resolved
and stamped: register the primary GeoJSON source, process the extra
geometries in attachment order, and append the primary layer — an object
reference, read against the table state at the end of the call — at the
final position. -/
def get_style_rest (skeleton : StyleDoc) (view : CrudView) (feature : Feature)
    (pref : LayerRef) (styles : StyleTable) : Except PyErr (StyleDoc × StyleTable) :=
  match processExtras view
      (dictUpdate skeleton.sources "primary" (SourceDef.geojson feature.geom))
      [] styles feature.extra_geometries with
  | Except.error e => Except.error e
  | Except.ok (sources1, refs, styles1) =>
      Except.ok
        ({ version := skeleton.version,
           sources := sources1,
           layers := skeleton.layers ++ refs.map (resolveRef styles1)
                       ++ [resolveRef styles1 pref] },
         styles1)

/-- Embeds `CrudRenderTemplateDetailView.get_style` (views.py lines 111-136).
The primary fragment is `view.map_style_with_default` — modelled from the
spec, its defining module being absent from the sources: the view's own
non-empty `map_style` override, otherwise `get_default_style` on the view's
layer.  Under Python reference semantics the default branch hands back the
configured table's own entry, so the in-place stamping of views.py lines
116-117 (`primary_layer['id'] = 'primary'`) mutates the shared table entry
itself, and the layer appended last at line 134 is that shared object — read
at the end of the call, after any later default-styled extra geometry of the
same kind has restamped it.  The override branch hands back the view's own
fragment, private to the request, stamped by value. -/
def get_style (skeleton : StyleDoc) (styles : StyleTable) (view : CrudView)
    (feature : Feature) : Except PyErr (StyleDoc × StyleTable) :=
  match view.map_style with
  | some s =>
      get_style_rest skeleton view feature (LayerRef.value (stamp s "primary")) styles
  | none =>
      match get_default_style styles feature.layer with
      | Except.error e => Except.error e
      | Except.ok none => Except.error PyErr.noneSubscript
      | Except.ok (some entry) =>
          get_style_rest skeleton view feature
            (LayerRef.defaultRef feature.layer.geom_kind)
            (tableSet styles feature.layer.geom_kind (stamp entry "primary"))

/-- Modelled from the spec: the configured base tile source of the renderer
skeleton `mblg_renderer_style` (its defining module is not among the sources;
the tests exhibit the id `TMP_MBGL_BASEMAP` and an OSM raster source). -/
def TMP_MBGL_BASEMAP_src : SourceDef :=
  SourceDef.raster ["http://a.tile.openstreetmap.org/{z}/{x}/{y}.png"] 256

/-- Modelled from the spec: the style skeleton `mblg_renderer_style` — version
number, the base tile source/layer pre-populated, nothing else. -/
def mblg_renderer_style : StyleDoc :=
  { version := 8,
    sources := [("TMP_MBGL_BASEMAP", TMP_MBGL_BASEMAP_src)],
    layers := [{ id := some "TMP_MBGL_BASEMAP",
                 source := some "TMP_MBGL_BASEMAP",
                 payload := [("type", "raster"), ("maxzoom", "15")] }] }

theorem dictUpdate_keys_of_not_mem {α : Type} (m : List (String × α)) (k : String) (v : α)
    (h : k ∉ m.map Prod.fst) :
    (dictUpdate m k v).map Prod.fst = m.map Prod.fst ++ [k] := by
  unfold dictUpdate
  have hany : m.any (fun p => p.1 == k) = false := by
    rw [List.any_eq_false]
    intro p hp
    simp only [beq_iff_eq]
    intro contra
    exact h (contra ▸ List.mem_map_of_mem Prod.fst hp)
  simp [hany]

theorem dictUpdate_keys_of_mem {α : Type} (m : List (String × α)) (k : String) (v : α)
    (h : k ∈ m.map Prod.fst) :
    (dictUpdate m k v).map Prod.fst = m.map Prod.fst := by
  unfold dictUpdate
  have hany : m.any (fun p => p.1 == k) = true := by
    rw [List.any_eq_true]
    rcases List.mem_map.mp h with ⟨p, hp, hpk⟩
    exact ⟨p, hp, by simp [hpk]⟩
  simp only [hany, if_pos, List.map_map]
  apply List.map_congr_left
  intro p _
  by_cases hc : p.1 = k
  · simp [hc]
  · simp [hc]

/-- The appended layer references of the extra-geometry loop extend the
accumulator by exactly one reference per extra geometry. -/
theorem processExtras_refs (view : CrudView) (extras : List ExtraFeature) :
    ∀ (sources : List (String × SourceDef)) (refs : List LayerRef) (styles : StyleTable)
      (s1 : List (String × SourceDef)) (r1 : List LayerRef) (st1 : StyleTable),
      processExtras view sources refs styles extras = Except.ok (s1, r1, st1) →
      ∃ mid, r1 = refs ++ mid ∧ mid.length = extras.length := by
  induction extras with
  | nil =>
    intro sources refs styles s1 r1 st1 h
    unfold processExtras at h
    injection h with h
    injection h with h1 h2
    injection h2 with h2 h3
    exact ⟨[], by simp [h2.symm], rfl⟩
  | cons e rest ih =>
    intro sources refs styles s1 r1 st1 h
    unfold processExtras at h
    cases ho : extraOverride view e.layer_extra_geom.name with
    | some ov =>
      rw [ho] at h
      simp only at h
      rcases ih _ _ _ _ _ _ h with ⟨mid, hmid, hlen⟩
      exact ⟨LayerRef.value (stamp ov e.layer_extra_geom.name) :: mid,
        by simp [hmid], by simp [hlen]⟩
    | none =>
      rw [ho] at h
      simp only at h
      cases hg : get_default_style styles ⟨e.layer_extra_geom.geom_kind⟩ with
      | error err => rw [hg] at h; simp at h
      | ok o =>
        rw [hg] at h
        cases o with
        | none => simp at h
        | some entry =>
          simp only at h
          rcases ih _ _ _ _ _ _ h with ⟨mid, hmid, hlen⟩
          exact ⟨LayerRef.defaultRef e.layer_extra_geom.geom_kind :: mid,
            by simp [hmid], by simp [hlen]⟩

/-- The source mapping produced by the extra-geometry loop: when the extra
geometry names are distinct and fresh with respect to the accumulated
sources, each loop step appends exactly one source keyed by the extra
geometry's definition name. -/
theorem processExtras_keys (view : CrudView) (extras : List ExtraFeature) :
    ∀ (sources : List (String × SourceDef)) (refs : List LayerRef) (styles : StyleTable)
      (s1 : List (String × SourceDef)) (r1 : List LayerRef) (st1 : StyleTable),
      processExtras view sources refs styles extras = Except.ok (s1, r1, st1) →
      (extras.map (fun e => e.layer_extra_geom.name)).Nodup →
      (∀ e ∈ extras, e.layer_extra_geom.name ∉ sources.map Prod.fst) →
      s1.map Prod.fst =
        sources.map Prod.fst ++ extras.map (fun e => e.layer_extra_geom.name) := by
  induction extras with
  | nil =>
    intro sources refs styles s1 r1 st1 h _ _
    unfold processExtras at h
    injection h with h
    injection h with h1 h2
    simp [h1.symm]
  | cons e rest ih =>
    intro sources refs styles s1 r1 st1 h hnodup hfresh
    have hke : e.layer_extra_geom.name ∉ sources.map Prod.fst :=
      hfresh e (List.mem_cons_self e rest)
    have hkeys := dictUpdate_keys_of_not_mem sources e.layer_extra_geom.name
      (SourceDef.geojson e.geom) hke
    have hnodup_rest : (rest.map (fun x => x.layer_extra_geom.name)).Nodup :=
      (List.nodup_cons.mp (by simpa using hnodup)).2
    have hhead : e.layer_extra_geom.name ∉ rest.map (fun x => x.layer_extra_geom.name) :=
      (List.nodup_cons.mp (by simpa using hnodup)).1
    have hfresh_rest : ∀ x ∈ rest, x.layer_extra_geom.name ∉
        (dictUpdate sources e.layer_extra_geom.name (SourceDef.geojson e.geom)).map Prod.fst := by
      intro x hx
      rw [hkeys]
      intro hmem
      rcases List.mem_append.mp hmem with hmem | hmem
      · exact hfresh x (List.mem_cons_of_mem e hx) hmem
      · rcases List.mem_singleton.mp hmem with heq
        exact hhead (heq ▸ List.mem_map_of_mem (fun x => x.layer_extra_geom.name) hx)
    unfold processExtras at h
    cases ho : extraOverride view e.layer_extra_geom.name with
    | some ov =>
      rw [ho] at h
      simp only at h
      have := ih _ _ _ _ _ _ h hnodup_rest hfresh_rest
      rw [this, hkeys]
      simp
    | none =>
      rw [ho] at h
      simp only at h
      cases hg : get_default_style styles ⟨e.layer_extra_geom.geom_kind⟩ with
      | error err => rw [hg] at h; simp at h
      | ok o =>
        rw [hg] at h
        cases o with
        | none => simp at h
        | some entry =>
          simp only at h
          have := ih _ _ _ _ _ _ h hnodup_rest hfresh_rest
          rw [this, hkeys]
          simp

theorem tableGet_tableSet_ne (st : StyleTable) (k1 k2 : GeomKind) (v : StyleLayer)
    (h : k1 ≠ k2) : tableGet (tableSet st k1 v) k2 = tableGet st k2 := by
  cases k1 <;> cases k2 <;> first | rfl | exact absurd rfl h

theorem tableGet_tableSet_self (st : StyleTable) (k : GeomKind) (v : StyleLayer)
    (h : k ≠ GeomKind.geometrycollection) : tableGet (tableSet st k v) k = some v := by
  cases k
  · rfl
  · rfl
  · rfl
  · exact absurd rfl h

theorem get_default_style_tableGet (styles : StyleTable) (layer : Layer)
    (o : Option StyleLayer) (h : get_default_style styles layer = Except.ok o) :
    tableGet styles layer.geom_kind = o := by
  obtain ⟨k⟩ := layer
  cases k
  · exact Except.ok.inj h
  · exact Except.ok.inj h
  · exact Except.ok.inj h
  · exact Except.noConfusion h

/-- The extra-geometry loop leaves a table entry untouched when no
default-styled extra geometry in the list has that entry's kind. -/
theorem processExtras_table_preserved (view : CrudView) (k : GeomKind)
    (extras : List ExtraFeature) :
    ∀ (sources : List (String × SourceDef)) (refs : List LayerRef) (styles : StyleTable)
      (s1 : List (String × SourceDef)) (r1 : List LayerRef) (st1 : StyleTable),
      processExtras view sources refs styles extras = Except.ok (s1, r1, st1) →
      (∀ e ∈ extras, extraOverride view e.layer_extra_geom.name = none →
        e.layer_extra_geom.geom_kind ≠ k) →
      tableGet st1 k = tableGet styles k := by
  induction extras with
  | nil =>
    intro sources refs styles s1 r1 st1 h _
    unfold processExtras at h
    injection h with h
    injection h with h1 h2
    injection h2 with h2 h3
    subst h3
    rfl
  | cons e rest ih =>
    intro sources refs styles s1 r1 st1 h hk
    unfold processExtras at h
    cases ho : extraOverride view e.layer_extra_geom.name with
    | some ov =>
      rw [ho] at h
      simp only at h
      exact ih _ _ _ _ _ _ h (fun x hx => hk x (List.mem_cons_of_mem e hx))
    | none =>
      rw [ho] at h
      simp only at h
      cases hg : get_default_style styles ⟨e.layer_extra_geom.geom_kind⟩ with
      | error err => rw [hg] at h; simp at h
      | ok o =>
        rw [hg] at h
        cases o with
        | none => simp at h
        | some entry =>
          simp only at h
          have hne : e.layer_extra_geom.geom_kind ≠ k :=
            hk e (List.mem_cons_self e rest) ho
          rw [ih _ _ _ _ _ _ h (fun x hx => hk x (List.mem_cons_of_mem e hx))]
          exact tableGet_tableSet_ne styles _ k _ hne

/-- The extra-geometry loop only restamps `id`/`source` on table entries: a
present entry stays present with its payload intact. -/
theorem processExtras_table_payload (view : CrudView) (k : GeomKind)
    (extras : List ExtraFeature) :
    ∀ (sources : List (String × SourceDef)) (refs : List LayerRef) (styles : StyleTable)
      (s1 : List (String × SourceDef)) (r1 : List LayerRef) (st1 : StyleTable)
      (l : StyleLayer),
      processExtras view sources refs styles extras = Except.ok (s1, r1, st1) →
      tableGet styles k = some l →
      ∃ l2, tableGet st1 k = some l2 ∧ l2.payload = l.payload := by
  induction extras with
  | nil =>
    intro sources refs styles s1 r1 st1 l h hl
    unfold processExtras at h
    injection h with h
    injection h with h1 h2
    injection h2 with h2 h3
    subst h3
    exact ⟨l, hl, rfl⟩
  | cons e rest ih =>
    intro sources refs styles s1 r1 st1 l h hl
    unfold processExtras at h
    cases ho : extraOverride view e.layer_extra_geom.name with
    | some ov =>
      rw [ho] at h
      simp only at h
      exact ih _ _ _ _ _ _ _ h hl
    | none =>
      rw [ho] at h
      simp only at h
      cases hg : get_default_style styles ⟨e.layer_extra_geom.geom_kind⟩ with
      | error err => rw [hg] at h; simp at h
      | ok o =>
        rw [hg] at h
        cases o with
        | none => simp at h
        | some entry =>
          simp only at h
          have hentry : tableGet styles e.layer_extra_geom.geom_kind = some entry :=
            get_default_style_tableGet styles ⟨e.layer_extra_geom.geom_kind⟩ _ hg
          by_cases hk : e.layer_extra_geom.geom_kind = k
          · have hne_gc : e.layer_extra_geom.geom_kind ≠ GeomKind.geometrycollection := by
              intro hgc
              rw [hgc] at hentry
              exact Option.noConfusion hentry
            have hself : tableGet (tableSet styles e.layer_extra_geom.geom_kind
                (stamp entry e.layer_extra_geom.name)) k =
                some (stamp entry e.layer_extra_geom.name) := by
              rw [← hk]
              exact tableGet_tableSet_self styles _ _ hne_gc
            rcases ih _ _ _ _ _ _ _ h hself with ⟨l2, hl2, hp2⟩
            refine ⟨l2, hl2, ?_⟩
            have hel : entry = l := by
              rw [hk] at hentry
              rw [hentry] at hl
              injection hl
            rw [hp2, ← hel]
            rfl
          · have hpr : tableGet (tableSet styles e.layer_extra_geom.geom_kind
                (stamp entry e.layer_extra_geom.name)) k = some l := by
              rw [tableGet_tableSet_ne _ _ _ _ hk]
              exact hl
            exact ih _ _ _ _ _ _ _ h hpr

/-- Destructures a successful `get_style_rest`: the processed sources and
layer references, and the shape of the returned document. -/
theorem get_style_rest_ok (skeleton : StyleDoc) (view : CrudView) (feature : Feature)
    (pref : LayerRef) (styles : StyleTable) (doc : StyleDoc) (st1 : StyleTable)
    (h : get_style_rest skeleton view feature pref styles = Except.ok (doc, st1)) :
    ∃ s1 r1,
      processExtras view
        (dictUpdate skeleton.sources "primary" (SourceDef.geojson feature.geom))
        [] styles feature.extra_geometries = Except.ok (s1, r1, st1) ∧
      doc = { version := skeleton.version,
              sources := s1,
              layers := skeleton.layers ++ r1.map (resolveRef st1)
                          ++ [resolveRef st1 pref] } := by
  unfold get_style_rest at h
  cases hp : processExtras view
      (dictUpdate skeleton.sources "primary" (SourceDef.geojson feature.geom))
      [] styles feature.extra_geometries with
  | error e => rw [hp] at h; simp at h
  | ok res =>
    obtain ⟨s1, r1, stt⟩ := res
    rw [hp] at h
    simp only at h
    injection h with h
    injection h with hdoc hst
    subst hst
    exact ⟨s1, r1, rfl, hdoc.symm⟩

/-- Destructures a successful `get_style` into its two primary-fragment
branches: the view's own non-empty override (stamped by value) or the shared
default entry (stamped in place, appended as a reference). -/
theorem get_style_ok_cases (skeleton : StyleDoc) (styles : StyleTable) (view : CrudView)
    (feature : Feature) (doc : StyleDoc) (st1 : StyleTable)
    (h : get_style skeleton styles view feature = Except.ok (doc, st1)) :
    (∃ s, view.map_style = some s ∧
      get_style_rest skeleton view feature (LayerRef.value (stamp s "primary")) styles =
        Except.ok (doc, st1)) ∨
    (∃ entry, view.map_style = none ∧
      get_default_style styles feature.layer = Except.ok (some entry) ∧
      get_style_rest skeleton view feature (LayerRef.defaultRef feature.layer.geom_kind)
        (tableSet styles feature.layer.geom_kind (stamp entry "primary")) =
        Except.ok (doc, st1)) := by
  unfold get_style at h
  cases hms : view.map_style with
  | some s =>
    rw [hms] at h
    exact Or.inl ⟨s, rfl, h⟩
  | none =>
    rw [hms] at h
    cases hg : get_default_style styles feature.layer with
    | error e => rw [hg] at h; simp at h
    | ok o =>
      rw [hg] at h
      cases o with
      | none => simp at h
      | some entry =>
        simp only at h
        exact Or.inr ⟨entry, rfl, rfl, h⟩

/-- Key sequence of the processed source mapping, independent of which
primary-fragment branch produced the table passed to the loop. -/
theorem sources_keys_core (skeleton : StyleDoc) (view : CrudView) (feature : Feature)
    (styles : StyleTable) (s1 : List (String × SourceDef)) (r1 : List LayerRef)
    (st1 : StyleTable) (baseId : String) (baseSrc : SourceDef)
    (hskel : skeleton.sources = [(baseId, baseSrc)])
    (hp : processExtras view
        (dictUpdate skeleton.sources "primary" (SourceDef.geojson feature.geom))
        [] styles feature.extra_geometries = Except.ok (s1, r1, st1))
    (hnodup : (feature.extra_geometries.map (fun e => e.layer_extra_geom.name)).Nodup)
    (hnp : "primary" ∉ feature.extra_geometries.map (fun e => e.layer_extra_geom.name))
    (hnb : baseId ∉ feature.extra_geometries.map (fun e => e.layer_extra_geom.name)) :
    (s1.map Prod.fst).Nodup ∧
    ∀ k, k ∈ s1.map Prod.fst ↔
      (k = baseId ∨ k = "primary" ∨
        k ∈ feature.extra_geometries.map (fun e => e.layer_extra_geom.name)) := by
  by_cases hb : baseId = "primary"
  · subst hb
    have hkeys0 : (dictUpdate skeleton.sources "primary"
        (SourceDef.geojson feature.geom)).map Prod.fst = ["primary"] := by
      rw [hskel, dictUpdate_keys_of_mem] <;> simp
    have hfresh : ∀ e ∈ feature.extra_geometries, e.layer_extra_geom.name ∉
        (dictUpdate skeleton.sources "primary"
          (SourceDef.geojson feature.geom)).map Prod.fst := by
      intro e he
      rw [hkeys0]
      simp only [List.mem_singleton]
      intro contra
      exact hnp (contra ▸ List.mem_map_of_mem _ he)
    have hfinal := processExtras_keys view feature.extra_geometries _ _ _ _ _ _
      hp hnodup hfresh
    rw [hkeys0] at hfinal
    constructor
    · rw [hfinal]
      simp only [List.singleton_append, List.nodup_cons]
      exact ⟨hnp, hnodup⟩
    · intro k
      rw [hfinal]
      simp only [List.singleton_append, List.mem_cons]
      tauto
  · have hkeys0 : (dictUpdate skeleton.sources "primary"
        (SourceDef.geojson feature.geom)).map Prod.fst = [baseId, "primary"] := by
      rw [hskel, dictUpdate_keys_of_not_mem]
      · simp
      · simp only [List.map_cons, List.map_nil, List.mem_singleton]
        exact fun contra => hb contra.symm
    have hfresh : ∀ e ∈ feature.extra_geometries, e.layer_extra_geom.name ∉
        (dictUpdate skeleton.sources "primary"
          (SourceDef.geojson feature.geom)).map Prod.fst := by
      intro e he
      rw [hkeys0]
      simp only [List.mem_cons, List.mem_singleton, List.not_mem_nil]
      rintro (contra | contra | contra)
      · exact hnb (contra ▸ List.mem_map_of_mem _ he)
      · exact hnp (contra ▸ List.mem_map_of_mem _ he)
      · exact contra
    have hfinal := processExtras_keys view feature.extra_geometries _ _ _ _ _ _
      hp hnodup hfresh
    rw [hkeys0] at hfinal
    constructor
    · rw [hfinal, List.nodup_append]
      refine ⟨by simp [hb], hnodup, ?_⟩
      intro a ha
      simp only [List.mem_cons, List.mem_singleton, List.not_mem_nil] at ha
      rcases ha with rfl | rfl | hfalse
      · exact hnb
      · exact hnp
      · exact absurd hfalse (by simp)
    · intro k
      rw [hfinal]
      simp only [List.mem_append, List.mem_cons, List.not_mem_nil]
      tauto

/-- claim C3 (amended): the layer appended for the primary geometry occupies
the final position of the composed `layers` sequence, strictly after every
extra-geometry layer.  It carries id `"primary"` whenever the view's
`map_style` override is non-empty, and also when no default-styled extra
geometry shares the layer's own geometry kind; otherwise the shared default
dict has been restamped in place with such an extra's name and the final
layer does not carry id `"primary"`. -/
theorem get_style_primary_layer_last (skeleton : StyleDoc) (styles : StyleTable)
    (view : CrudView) (feature : Feature) (doc : StyleDoc) (st1 : StyleTable)
    (h : get_style skeleton styles view feature = Except.ok (doc, st1)) :
    ∃ extraLayers p,
      doc.layers = skeleton.layers ++ extraLayers ++ [p] ∧
      extraLayers.length = feature.extra_geometries.length ∧
      (∀ s, view.map_style = some s → p = stamp s "primary") ∧
      (view.map_style = none →
        (∀ e ∈ feature.extra_geometries,
          extraOverride view e.layer_extra_geom.name = none →
          e.layer_extra_geom.geom_kind ≠ feature.layer.geom_kind) →
        p.id = some "primary" ∧ p.source = some "primary") := by
  rcases get_style_ok_cases skeleton styles view feature doc st1 h with
    ⟨s, hms, hrest⟩ | ⟨entry, hms, hg, hrest⟩
  · rcases get_style_rest_ok _ _ _ _ _ _ _ hrest with ⟨s1, r1, hp, hdoc⟩
    subst hdoc
    rcases processExtras_refs view feature.extra_geometries _ _ _ _ _ _ hp with
      ⟨mid, hmid, hlen⟩
    refine ⟨r1.map (resolveRef st1), stamp s "primary", rfl,
      by simp [hmid, hlen], ?_, ?_⟩
    · intro s2 hs2
      rw [hms] at hs2
      injection hs2 with hs2
      rw [hs2]
    · intro hnone
      rw [hms] at hnone
      exact absurd hnone (by simp)
  · rcases get_style_rest_ok _ _ _ _ _ _ _ hrest with ⟨s1, r1, hp, hdoc⟩
    subst hdoc
    rcases processExtras_refs view feature.extra_geometries _ _ _ _ _ _ hp with
      ⟨mid, hmid, hlen⟩
    refine ⟨r1.map (resolveRef st1),
      resolveRef st1 (LayerRef.defaultRef feature.layer.geom_kind), rfl,
      by simp [hmid, hlen], ?_, ?_⟩
    · intro s2 hs2
      rw [hms] at hs2
      exact Option.noConfusion hs2
    · intro _ hnoalias
      have hne_gc : feature.layer.geom_kind ≠ GeomKind.geometrycollection := by
        intro hgc
        have hentry := get_default_style_tableGet styles feature.layer _ hg
        rw [hgc] at hentry
        exact Option.noConfusion hentry
      have hself := tableGet_tableSet_self styles feature.layer.geom_kind
        (stamp entry "primary") hne_gc
      have hpres := processExtras_table_preserved view feature.layer.geom_kind
        feature.extra_geometries _ _ _ _ _ _ hp hnoalias
      have hfin : tableGet st1 feature.layer.geom_kind =
          some (stamp entry "primary") := by
        rw [hpres, hself]
      constructor
      · show (resolveRef st1 (LayerRef.defaultRef feature.layer.geom_kind)).id =
          some "primary"
        simp [resolveRef, hfin, stamp]
      · show (resolveRef st1 (LayerRef.defaultRef feature.layer.geom_kind)).source =
          some "primary"
        simp [resolveRef, hfin, stamp]

/-- Per-view override style fragment used in the concrete composition
examples. -/
def circle_override_style : StyleLayer :=
  { payload := [("type", "circle"), ("paint.circle-color", "#FFFFFF")] }

/-- Per-(extra geometry, view) override fragment used in the concrete
composition examples. -/
def buffer_override_style : StyleLayer :=
  { payload := [("type", "fill"), ("paint.fill-color", "#00F")] }

/-- An extra-geometry definition named `buffer`, of polygon kind. -/
def buffer_extra_geom : LayerExtraGeom :=
  { name := "buffer", geom_kind := GeomKind.polygon }

/-- An extra-geometry instance over `buffer_extra_geom`. -/
def buffer_extra_feature : ExtraFeature :=
  { layer_extra_geom := buffer_extra_geom,
    geom := Geometry.polygon (0, 0) [(0, 5), (5, 5)] }

/-- A view with a non-empty primary override and an `ExtraLayerStyle` override
for `buffer`. -/
def overridden_view : CrudView :=
  { map_style := some circle_override_style,
    extra_styles := [{ layer_extra_geom_name := "buffer",
                       map_style := some buffer_override_style }] }

/-- A view with no primary override and no extra-style rows. -/
def plain_view : CrudView :=
  { map_style := none, extra_styles := [] }

/-- A linestring feature carrying one extra geometry. -/
def line_feature_with_extra : Feature :=
  { layer := ⟨GeomKind.linestring⟩,
    geom := Geometry.line (1, 2) [(3, 4)],
    extra_geometries := [buffer_extra_feature] }

/-- A point feature with no extra geometries. -/
def point_feature_plain : Feature :=
  { layer := ⟨GeomKind.point⟩,
    geom := Geometry.point 3 4,
    extra_geometries := [] }

/-- The composed document for `overridden_view` over
`line_feature_with_extra`. -/
def composed_doc_override : StyleDoc :=
  { version := 8,
    sources := [("TMP_MBGL_BASEMAP", TMP_MBGL_BASEMAP_src),
                ("primary", SourceDef.geojson (Geometry.line (1, 2) [(3, 4)])),
                ("buffer", SourceDef.geojson (Geometry.polygon (0, 0) [(0, 5), (5, 5)]))],
    layers := [{ id := some "TMP_MBGL_BASEMAP",
                 source := some "TMP_MBGL_BASEMAP",
                 payload := [("type", "raster"), ("maxzoom", "15")] },
               stamp buffer_override_style "buffer",
               stamp circle_override_style "primary"] }

/-- The composed document for `plain_view` over `point_feature_plain`. -/
def composed_doc_default_point : StyleDoc :=
  { version := 8,
    sources := [("TMP_MBGL_BASEMAP", TMP_MBGL_BASEMAP_src),
                ("primary", SourceDef.geojson (Geometry.point 3 4))],
    layers := [{ id := some "TMP_MBGL_BASEMAP",
                 source := some "TMP_MBGL_BASEMAP",
                 payload := [("type", "raster"), ("maxzoom", "15")] },
               stamp point_default_style "primary"] }

theorem get_style_overridden_eval :
    get_style mblg_renderer_style TERRA_GEOCRUD_STYLES overridden_view
      line_feature_with_extra =
      Except.ok (composed_doc_override, TERRA_GEOCRUD_STYLES) := rfl

/-- The configured table after a default-styled primary has been stamped
`"primary"` in place (views.py lines 116-117 under reference semantics). -/
def stamped_point_table : StyleTable :=
  { TERRA_GEOCRUD_STYLES with point := some (stamp point_default_style "primary") }

theorem get_style_default_point_eval :
    get_style mblg_renderer_style TERRA_GEOCRUD_STYLES plain_view
      point_feature_plain =
      Except.ok (composed_doc_default_point, stamped_point_table) := rfl

/-- Witness for claim C3 on both branches: the overridden composition over a
feature with one extra geometry, and the default-styled point composition
where no extra geometry shares the point kind. -/
theorem get_style_primary_layer_last_witness :
    (∃ extraLayers p,
      composed_doc_override.layers = mblg_renderer_style.layers ++ extraLayers ++ [p] ∧
      extraLayers.length = line_feature_with_extra.extra_geometries.length ∧
      (∀ s, overridden_view.map_style = some s → p = stamp s "primary") ∧
      (overridden_view.map_style = none →
        (∀ e ∈ line_feature_with_extra.extra_geometries,
          extraOverride overridden_view e.layer_extra_geom.name = none →
          e.layer_extra_geom.geom_kind ≠ line_feature_with_extra.layer.geom_kind) →
        p.id = some "primary" ∧ p.source = some "primary")) ∧
    (∃ extraLayers p,
      composed_doc_default_point.layers =
        mblg_renderer_style.layers ++ extraLayers ++ [p] ∧
      extraLayers.length = point_feature_plain.extra_geometries.length ∧
      (∀ s, plain_view.map_style = some s → p = stamp s "primary") ∧
      (plain_view.map_style = none →
        (∀ e ∈ point_feature_plain.extra_geometries,
          extraOverride plain_view e.layer_extra_geom.name = none →
          e.layer_extra_geom.geom_kind ≠ point_feature_plain.layer.geom_kind) →
        p.id = some "primary" ∧ p.source = some "primary")) :=
  ⟨get_style_primary_layer_last mblg_renderer_style TERRA_GEOCRUD_STYLES
     overridden_view line_feature_with_extra composed_doc_override TERRA_GEOCRUD_STYLES
     get_style_overridden_eval,
   get_style_primary_layer_last mblg_renderer_style TERRA_GEOCRUD_STYLES plain_view
     point_feature_plain composed_doc_default_point stamped_point_table
     get_style_default_point_eval⟩

/-- claim C2 (amended): the effective primary style composed into the final
layer slot is the view's own `map_style` override, stamped `"primary"`, when
that override is non-empty; otherwise it is the configured default fragment
for the view's layer — the last layer carries exactly that fragment's
content, and keeps the stamp `"primary"` unless a later default-styled extra
geometry of the same kind restamped the shared dict with its own name. -/
theorem effective_primary_style (skeleton : StyleDoc) (styles : StyleTable)
    (view : CrudView) (feature : Feature) (doc : StyleDoc) (st1 : StyleTable)
    (h : get_style skeleton styles view feature = Except.ok (doc, st1)) :
    (∀ s, view.map_style = some s →
      doc.layers.getLast? = some (stamp s "primary")) ∧
    (view.map_style = none →
      ∃ d p, get_default_style styles feature.layer = Except.ok (some d) ∧
        doc.layers.getLast? = some p ∧ p.payload = d.payload ∧
        ((∀ e ∈ feature.extra_geometries,
            extraOverride view e.layer_extra_geom.name = none →
            e.layer_extra_geom.geom_kind ≠ feature.layer.geom_kind) →
          p = stamp d "primary")) := by
  rcases get_style_ok_cases skeleton styles view feature doc st1 h with
    ⟨s, hms, hrest⟩ | ⟨entry, hms, hg, hrest⟩
  · rcases get_style_rest_ok _ _ _ _ _ _ _ hrest with ⟨s1, r1, hp, hdoc⟩
    subst hdoc
    constructor
    · intro s2 hs2
      rw [hms] at hs2
      injection hs2 with hs2
      subst hs2
      show (skeleton.layers ++ r1.map (resolveRef st1)
          ++ [resolveRef st1 (LayerRef.value (stamp s "primary"))]).getLast? = _
      rw [List.getLast?_concat]
      rfl
    · intro hnone
      rw [hms] at hnone
      exact absurd hnone (by simp)
  · rcases get_style_rest_ok _ _ _ _ _ _ _ hrest with ⟨s1, r1, hp, hdoc⟩
    subst hdoc
    constructor
    · intro s2 hs2
      rw [hms] at hs2
      exact Option.noConfusion hs2
    · intro _
      have hne_gc : feature.layer.geom_kind ≠ GeomKind.geometrycollection := by
        intro hgc
        have hentry := get_default_style_tableGet styles feature.layer _ hg
        rw [hgc] at hentry
        exact Option.noConfusion hentry
      have hself := tableGet_tableSet_self styles feature.layer.geom_kind
        (stamp entry "primary") hne_gc
      rcases processExtras_table_payload view feature.layer.geom_kind
          feature.extra_geometries _ _ _ _ _ _ _ hp hself with ⟨l2, hl2, hpay⟩
      refine ⟨entry, resolveRef st1 (LayerRef.defaultRef feature.layer.geom_kind),
        hg, ?_, ?_, ?_⟩
      · show (skeleton.layers ++ r1.map (resolveRef st1)
            ++ [resolveRef st1 (LayerRef.defaultRef feature.layer.geom_kind)]).getLast?
            = _
        rw [List.getLast?_concat]
      · show (resolveRef st1 (LayerRef.defaultRef feature.layer.geom_kind)).payload =
          entry.payload
        simp only [resolveRef, hl2, Option.getD_some]
        exact hpay
      · intro hnoalias
        have hpres := processExtras_table_preserved view feature.layer.geom_kind
          feature.extra_geometries _ _ _ _ _ _ hp hnoalias
        have hfin : tableGet st1 feature.layer.geom_kind =
            some (stamp entry "primary") := by
          rw [hpres, hself]
        simp [resolveRef, hfin]

/-- Witness for claim C2: one view whose non-empty override becomes the
primary layer, one view falling back to the configured default with no
aliasing extra, so the stamp `"primary"` survives intact. -/
theorem effective_primary_style_witness :
    composed_doc_override.layers.getLast? = some (stamp circle_override_style "primary") ∧
    ∃ d p, get_default_style TERRA_GEOCRUD_STYLES point_feature_plain.layer =
        Except.ok (some d) ∧
      composed_doc_default_point.layers.getLast? = some p ∧ p.payload = d.payload ∧
      ((∀ e ∈ point_feature_plain.extra_geometries,
          extraOverride plain_view e.layer_extra_geom.name = none →
          e.layer_extra_geom.geom_kind ≠ point_feature_plain.layer.geom_kind) →
        p = stamp d "primary") :=
  ⟨(effective_primary_style mblg_renderer_style TERRA_GEOCRUD_STYLES overridden_view
      line_feature_with_extra composed_doc_override TERRA_GEOCRUD_STYLES
      get_style_overridden_eval).1 circle_override_style rfl,
   (effective_primary_style mblg_renderer_style TERRA_GEOCRUD_STYLES plain_view
      point_feature_plain composed_doc_default_point stamped_point_table
      get_style_default_point_eval).2 rfl⟩

/-- claim C4: when the extra-geometry definition names are pairwise distinct
and differ from the base tile identifier and from `"primary"`, the key
sequence of the composed document's source mapping contains no duplicate and
its members are exactly the base tile identifier, `"primary"`, and the
extra-geometry names. -/
theorem get_style_source_identifiers (skeleton : StyleDoc) (styles : StyleTable)
    (view : CrudView) (feature : Feature) (doc : StyleDoc) (st1 : StyleTable)
    (baseId : String) (baseSrc : SourceDef)
    (hskel : skeleton.sources = [(baseId, baseSrc)])
    (h : get_style skeleton styles view feature = Except.ok (doc, st1))
    (hnodup : (feature.extra_geometries.map (fun e => e.layer_extra_geom.name)).Nodup)
    (hnp : "primary" ∉ feature.extra_geometries.map (fun e => e.layer_extra_geom.name))
    (hnb : baseId ∉ feature.extra_geometries.map (fun e => e.layer_extra_geom.name)) :
    (doc.sources.map Prod.fst).Nodup ∧
    ∀ k, k ∈ doc.sources.map Prod.fst ↔
      (k = baseId ∨ k = "primary" ∨
        k ∈ feature.extra_geometries.map (fun e => e.layer_extra_geom.name)) := by
  rcases get_style_ok_cases skeleton styles view feature doc st1 h with
    ⟨s, hms, hrest⟩ | ⟨entry, hms, hg, hrest⟩
  · rcases get_style_rest_ok _ _ _ _ _ _ _ hrest with ⟨s1, r1, hp, hdoc⟩
    subst hdoc
    exact sources_keys_core skeleton view feature styles s1 r1 st1 baseId baseSrc
      hskel hp hnodup hnp hnb
  · rcases get_style_rest_ok _ _ _ _ _ _ _ hrest with ⟨s1, r1, hp, hdoc⟩
    subst hdoc
    exact sources_keys_core skeleton view feature
      (tableSet styles feature.layer.geom_kind (stamp entry "primary")) s1 r1 st1
      baseId baseSrc hskel hp hnodup hnp hnb

/-- Witness for claim C4, on the concrete overridden composition. -/
theorem get_style_source_identifiers_witness :
    (composed_doc_override.sources.map Prod.fst).Nodup ∧
    ∀ k, k ∈ composed_doc_override.sources.map Prod.fst ↔
      (k = "TMP_MBGL_BASEMAP" ∨ k = "primary" ∨
        k ∈ line_feature_with_extra.extra_geometries.map
          (fun e => e.layer_extra_geom.name)) :=
  get_style_source_identifiers mblg_renderer_style TERRA_GEOCRUD_STYLES
    overridden_view line_feature_with_extra composed_doc_override TERRA_GEOCRUD_STYLES
    "TMP_MBGL_BASEMAP" TMP_MBGL_BASEMAP_src rfl get_style_overridden_eval
    (by decide) (by decide) (by decide)

/-- The rendering context assembled by `get_context_data`: the serialized
style document and fixed dimensions, plus either `center`/`zoom` or
`bounds`. -/
structure RenderContext where
  style : StyleDoc
  width : Int
  height : Int
  token : Option String
  zoom : Option Int := none
  center : Option (List Int) := none
  bounds : Option String := none
deriving DecidableEq, Repr

/-- Modelled from the spec: the configured maximum zoom.  The code reads
`app_settings.TERRA_GEOCRUD.get('MAX_ZOOM', 22)`; the settings module is
absent from the sources and the repository tests pin the configured value
at 15. -/
def TERRA_GEOCRUD_MAX_ZOOM : Int := 15

/-- Bounding extent `(minx, miny, maxx, maxy)` of a non-empty coordinate
collection given as a head coordinate and the remaining coordinates. -/
def extentFold (c : Int × Int) (rest : List (Int × Int)) : Int × Int × Int × Int :=
  rest.foldl
    (fun acc p => (min acc.1 p.1, min acc.2.1 p.2, max acc.2.2.1 p.1, max acc.2.2.2 p.2))
    (c.1, c.2, c.1, c.2)

/-- Embeds `GeometryCollection(feature.geom, *extra_geoms).extent`: the
bounding extent over the primary geometry's vertices and every extra
geometry's vertices. -/
def featureCollectionExtent (f : Feature) : Int × Int × Int × Int :=
  extentFold f.geom.headCoord
    (f.geom.tailCoords ++ (f.extra_geometries.map (fun e => e.geom.coords)).flatten)

/-- Embeds `','.join(str(v) for v in collections.extent)`. -/
def extentString (ext : Int × Int × Int × Int) : String :=
  String.intercalate ","
    [toString ext.1, toString ext.2.1, toString ext.2.2.1, toString ext.2.2.2]

/-- Embeds `CrudRenderTemplateDetailView.get_context_data` (views.py lines
138-157): compose the style document, then attach either `zoom`/`center`
(point layer, no extra geometries) or the `bounds` string (every other
case). -/
def get_context_data (skeleton : StyleDoc) (styles : StyleTable)
    (token : Option String) (view : CrudView) (feature : Feature) :
    Except PyErr (RenderContext × StyleTable) :=
  match get_style skeleton styles view feature with
  | Except.error e => Except.error e
  | Except.ok (doc, styles1) =>
    if feature.layer.is_point && feature.extra_geometries.isEmpty then
      Except.ok ({ style := doc, width := 1024, height := 512, token := token,
                   zoom := some TERRA_GEOCRUD_MAX_ZOOM,
                   center := some feature.geom.centroidList }, styles1)
    else
      Except.ok ({ style := doc, width := 1024, height := 512, token := token,
                   bounds := some (extentString (featureCollectionExtent feature)) },
                 styles1)

/-- claim C5: the rendering context contains exactly one of the two viewport
forms — `center`/`zoom` for a point-layer feature with no extra geometries
(center being the point's own coordinates and zoom the configured maximum),
the bounding-extent `bounds` string of the primary-plus-extra geometry
collection in every other case — and never both, never neither.  The
hypothesis that a point layer's feature geometry is a point is the feature
store's layer/geometry agreement invariant. -/
theorem get_context_data_viewport (skeleton : StyleDoc) (styles : StyleTable)
    (token : Option String) (view : CrudView) (feature : Feature)
    (ctx : RenderContext) (st1 : StyleTable)
    (h : get_context_data skeleton styles token view feature = Except.ok (ctx, st1))
    (hagree : feature.layer.is_point = true → ∃ x y, feature.geom = Geometry.point x y) :
    ((ctx.center.isSome = true ∧ ctx.zoom.isSome = true ∧ ctx.bounds = none) ∨
     (ctx.center = none ∧ ctx.zoom = none ∧ ctx.bounds.isSome = true)) ∧
    (feature.layer.is_point = true → feature.extra_geometries = [] →
      ∃ x y, feature.geom = Geometry.point x y ∧
        ctx.center = some [x, y] ∧ ctx.zoom = some TERRA_GEOCRUD_MAX_ZOOM ∧
        ctx.bounds = none) ∧
    (¬(feature.layer.is_point = true ∧ feature.extra_geometries = []) →
      ctx.bounds = some (extentString (featureCollectionExtent feature)) ∧
      ctx.center = none ∧ ctx.zoom = none) := by
  unfold get_context_data at h
  cases hg : get_style skeleton styles view feature with
  | error e => rw [hg] at h; simp at h
  | ok res =>
    obtain ⟨doc, styles1⟩ := res
    rw [hg] at h
    simp only at h
    by_cases hcond : (feature.layer.is_point && feature.extra_geometries.isEmpty) = true
    · rw [if_pos hcond] at h
      injection h with h
      injection h with hctx hst
      subst hctx
      rw [Bool.and_eq_true] at hcond
      obtain ⟨hpt, hemp⟩ := hcond
      obtain ⟨x, y, hxy⟩ := hagree hpt
      have hemp' : feature.extra_geometries = [] := by
        simpa using hemp
      refine ⟨Or.inl ⟨rfl, rfl, rfl⟩, ?_, ?_⟩
      · intro _ _
        exact ⟨x, y, hxy, by simp [hxy, Geometry.centroidList], rfl, rfl⟩
      · intro hcontra
        exact absurd ⟨hpt, hemp'⟩ hcontra
    · rw [if_neg hcond] at h
      injection h with h
      injection h with hctx hst
      subst hctx
      refine ⟨Or.inr ⟨rfl, rfl, rfl⟩, ?_, ?_⟩
      · intro hpt hemp
        exact absurd (by simp [hpt, hemp]) hcond
      · intro _
        exact ⟨rfl, rfl, rfl⟩

/-- The context computed for the plain point feature. -/
def point_render_context : RenderContext :=
  { style := composed_doc_default_point, width := 1024, height := 512,
    token := none, zoom := some TERRA_GEOCRUD_MAX_ZOOM,
    center := some [3, 4], bounds := none }

/-- The context computed for the line feature with one extra geometry. -/
def line_render_context : RenderContext :=
  { style := composed_doc_override, width := 1024, height := 512,
    token := none, bounds := some "0,0,5,5" }

theorem get_context_data_point_eval :
    get_context_data mblg_renderer_style TERRA_GEOCRUD_STYLES none plain_view
      point_feature_plain = Except.ok (point_render_context, stamped_point_table) := rfl

theorem get_context_data_line_eval :
    get_context_data mblg_renderer_style TERRA_GEOCRUD_STYLES none overridden_view
      line_feature_with_extra = Except.ok (line_render_context, TERRA_GEOCRUD_STYLES) := rfl

/-- Witness for claim C5: both viewport branches on concrete features. -/
theorem get_context_data_viewport_witness :
    (∃ x y, point_feature_plain.geom = Geometry.point x y ∧
      point_render_context.center = some [x, y] ∧
      point_render_context.zoom = some TERRA_GEOCRUD_MAX_ZOOM ∧
      point_render_context.bounds = none) ∧
    (line_render_context.bounds =
        some (extentString (featureCollectionExtent line_feature_with_extra)) ∧
      line_render_context.center = none ∧ line_render_context.zoom = none) :=
  ⟨(get_context_data_viewport mblg_renderer_style TERRA_GEOCRUD_STYLES none
      plain_view point_feature_plain point_render_context stamped_point_table
      get_context_data_point_eval (fun _ => ⟨3, 4, rfl⟩)).2.1 rfl rfl,
   (get_context_data_viewport mblg_renderer_style TERRA_GEOCRUD_STYLES none
      overridden_view line_feature_with_extra line_render_context TERRA_GEOCRUD_STYLES
      get_context_data_line_eval
      (fun hpt => absurd hpt (by decide))).2.2
      (fun hc => absurd hc.1 (by decide))⟩

/-- A view whose primary style is a non-empty override, with no extra-style
rows, so the only default-style lookup happens for the extra geometry. -/
def mutation_view : CrudView :=
  { map_style := some circle_override_style, extra_styles := [] }

/-- An extra geometry of point kind with no per-view override: its effective
style falls back to the configured default point entry. -/
def around_extra_feature : ExtraFeature :=
  { layer_extra_geom := { name := "around", geom_kind := GeomKind.point },
    geom := Geometry.point 7 8 }

/-- A linestring feature carrying the defaulted extra geometry. -/
def mutation_feature : Feature :=
  { layer := ⟨GeomKind.linestring⟩,
    geom := Geometry.line (0, 0) [(1, 1)],
    extra_geometries := [around_extra_feature] }

/-- claim C9 is violated by the code: `get_style` stamps `id`/`source` in
place on the very dict that `get_default_style` returned, which is the
configured default-style table's entry itself, so the call leaves the shared
table changed.  Evaluating the code at the failing input (a feature with one
extra geometry of point kind and no `ExtraLayerStyle` override): after the
call the table's point entry carries `id = source = "around"`, so the table
no longer equals its pre-call state. -/
theorem get_style_mutates_shared_default_table :
    ∃ doc, get_style mblg_renderer_style TERRA_GEOCRUD_STYLES mutation_view
        mutation_feature =
      Except.ok (doc,
        { TERRA_GEOCRUD_STYLES with
            point := some (stamp point_default_style "around") }) ∧
      ({ TERRA_GEOCRUD_STYLES with
           point := some (stamp point_default_style "around") } : StyleTable) ≠
        TERRA_GEOCRUD_STYLES :=
  ⟨_, rfl, by decide⟩

/-- A view with empty `map_style` and no extra-style rows: both the primary
fragment and any extra geometry fall back to the shared default entries. -/
def aliasing_view : CrudView :=
  { map_style := none, extra_styles := [] }

/-- A point feature carrying one default-styled extra geometry of point
kind: the primary fragment and the extra's fragment alias the same shared
default dict. -/
def aliasing_feature : Feature :=
  { layer := ⟨GeomKind.point⟩,
    geom := Geometry.point 1 1,
    extra_geometries := [around_extra_feature] }

/-- The document composed at the aliasing input: the shared point entry is
stamped `"primary"` (views.py lines 116-117), then restamped `"around"` by
the defaulted extra (lines 128-129); both appended layer slots are that one
dict, so the final layer carries id `"around"` and no layer carries id
`"primary"`. -/
def aliased_doc : StyleDoc :=
  { version := 8,
    sources := [("TMP_MBGL_BASEMAP", TMP_MBGL_BASEMAP_src),
                ("primary", SourceDef.geojson (Geometry.point 1 1)),
                ("around", SourceDef.geojson (Geometry.point 7 8))],
    layers := [{ id := some "TMP_MBGL_BASEMAP",
                 source := some "TMP_MBGL_BASEMAP",
                 payload := [("type", "raster"), ("maxzoom", "15")] },
               stamp point_default_style "around",
               stamp point_default_style "around"] }

/-- Counterexample to claim C3 as stated: at the aliasing input the composed
document contains an extra-geometry layer, yet no layer whose id is
`"primary"` — so the layer with id `"primary"` is not placed after the extra
layers, it does not exist at all. -/
theorem get_style_primary_id_lost :
    get_style mblg_renderer_style TERRA_GEOCRUD_STYLES aliasing_view
      aliasing_feature =
      Except.ok (aliased_doc,
        { TERRA_GEOCRUD_STYLES with
            point := some (stamp point_default_style "around") }) ∧
    aliased_doc.layers.all (fun l => l.id != some "primary") = true ∧
    aliased_doc.layers.length = 3 :=
  ⟨rfl, rfl, rfl⟩

/-- Counterexample to claim C2 as stated: at the aliasing input the view's
`map_style` is empty, yet the last composed layer is not the default point
fragment stamped `"primary"` — the shared dict was restamped in place with
the defaulted extra's name. -/
theorem effective_primary_style_restamped :
    get_style mblg_renderer_style TERRA_GEOCRUD_STYLES aliasing_view
      aliasing_feature =
      Except.ok (aliased_doc,
        { TERRA_GEOCRUD_STYLES with
            point := some (stamp point_default_style "around") }) ∧
    aliasing_view.map_style = none ∧
    aliased_doc.layers.getLast? = some (stamp point_default_style "around") ∧
    stamp point_default_style "around" ≠ stamp point_default_style "primary" :=
  ⟨rfl, rfl, rfl, by decide⟩

/-- A raw UI ordering schema: the optional top-level `ui:order` sequence plus
per-property widget-directive objects, each kept as an opaque ordered
key/value mapping (e.g. `ui:widget -> textarea`). -/
structure RawUISchema where
  order : Option (List String)
  props : List (String × List (String × String))
deriving DecidableEq, Repr

/-- The sub-object a group slug maps to in the grouped UI schema: its own
`ui:order` plus the widget directives carried over from the raw schema. -/
structure GroupUISchema where
  order : List String
  props : List (String × List (String × String))
deriving DecidableEq, Repr

/-- The restructured UI ordering schema produced when display groups exist. -/
structure GroupedUISchema where
  order : List String
  groups : List (String × GroupUISchema)
deriving DecidableEq, Repr

/-- Result of the grouped UI-ordering transform: the raw schema passed
through unchanged, or the grouped restructuring. -/
inductive UISchemaResult where
  | raw (s : RawUISchema)
  | grouped (g : GroupedUISchema)
deriving DecidableEq, Repr

/-- A `FeaturePropertyDisplayGroup`: a named subset of a view's properties,
with its slug and its ordered property-name list. -/
structure FeaturePropertyDisplayGroup where
  label : String
  slug : String
  properties : List String
deriving DecidableEq, Repr

/-- Modelled from the spec: the grouped UI-ordering transform (defined in the
terra_geocrud serializer/model modules absent from src/).  With zero display
groups the raw schema passes through unchanged; otherwise the top-level
`ui:order` becomes the group slugs in group order followed by `"*"`, and each
slug maps to a sub-object whose `ui:order` is the group's property names
followed by `"*"`, merged with the raw schema's pre-existing widget
directives for those properties. -/
def grouped_ui_schema (groups : List FeaturePropertyDisplayGroup)
    (raw : RawUISchema) : UISchemaResult :=
  match groups with
  | [] => UISchemaResult.raw raw
  | _ :: _ =>
      UISchemaResult.grouped
        { order := groups.map (fun g => g.slug) ++ ["*"],
          groups := groups.map (fun g =>
            (g.slug,
             { order := g.properties ++ ["*"],
               props := raw.props.filter (fun p => g.properties.contains p.1) })) }

/-- claim C6: with zero display groups the transform returns the raw schema
unchanged; with display groups it returns a schema whose top-level order is
the group slugs in group order followed by `"*"`, in which each group slug
maps to a sub-object ordering the group's properties followed by `"*"`,
merged with the raw schema's widget directives for exactly those
properties. -/
theorem grouped_ui_schema_spec (groups : List FeaturePropertyDisplayGroup)
    (raw : RawUISchema) :
    (groups = [] → grouped_ui_schema groups raw = UISchemaResult.raw raw) ∧
    (groups ≠ [] → ∃ g, grouped_ui_schema groups raw = UISchemaResult.grouped g ∧
      g.order = groups.map (fun x => x.slug) ++ ["*"] ∧
      g.groups = groups.map (fun grp =>
        (grp.slug,
         { order := grp.properties ++ ["*"],
           props := raw.props.filter (fun p => grp.properties.contains p.1) })) ∧
      ∀ grp ∈ groups, ∀ q ds,
        ((q, ds) ∈ raw.props.filter (fun p => grp.properties.contains p.1) ↔
          ((q, ds) ∈ raw.props ∧ q ∈ grp.properties))) := by
  constructor
  · intro hnil
    subst hnil
    rfl
  · intro hne
    cases groups with
    | nil => exact absurd rfl hne
    | cons g0 grest =>
      refine ⟨_, rfl, rfl, rfl, ?_⟩
      intro grp _ q ds
      simp [List.mem_filter]

/-- The raw schema of the repository's grouped UI-schema test: a textarea
widget on `name` and a flat order `[name, age]`. -/
def raw_test_schema : RawUISchema :=
  { order := some ["name", "age"],
    props := [("name", [("ui:widget", "textarea")])] }

/-- Display group `test` holding `age`. -/
def group_test : FeaturePropertyDisplayGroup :=
  { label := "test", slug := "test", properties := ["age"] }

/-- Display group `test2` holding `name`. -/
def group_test2 : FeaturePropertyDisplayGroup :=
  { label := "test2", slug := "test2", properties := ["name"] }

theorem grouped_ui_schema_test_eval :
    grouped_ui_schema [group_test, group_test2] raw_test_schema =
      UISchemaResult.grouped
        { order := ["test", "test2", "*"],
          groups := [("test", { order := ["age", "*"], props := [] }),
                     ("test2", { order := ["name", "*"],
                                 props := [("name", [("ui:widget", "textarea")])] })] } := rfl

/-- Witness for claim C6: the repository test's instance — two groups and a
raw schema with one widget directive — and the pass-through on zero
groups. -/
theorem grouped_ui_schema_spec_witness :
    grouped_ui_schema [] raw_test_schema = UISchemaResult.raw raw_test_schema ∧
    ∃ g, grouped_ui_schema [group_test, group_test2] raw_test_schema =
        UISchemaResult.grouped g ∧
      g.order = [group_test, group_test2].map (fun x => x.slug) ++ ["*"] ∧
      g.groups = [group_test, group_test2].map (fun grp =>
        (grp.slug,
         { order := grp.properties ++ ["*"],
           props := raw_test_schema.props.filter
             (fun p => grp.properties.contains p.1) })) ∧
      ∀ grp ∈ [group_test, group_test2], ∀ q ds,
        ((q, ds) ∈ raw_test_schema.props.filter
            (fun p => grp.properties.contains p.1) ↔
          ((q, ds) ∈ raw_test_schema.props ∧ q ∈ grp.properties)) :=
  ⟨(grouped_ui_schema_spec [] raw_test_schema).1 rfl,
   (grouped_ui_schema_spec [group_test, group_test2] raw_test_schema).2
     (by decide)⟩

/-- A feature property value (string or number suffice for the claims). -/
inductive PropVal where
  | s (v : String)
  | n (v : Int)
deriving DecidableEq, Repr

/-- Modelled from the spec: the read-direction grouped property-value
transform behind a feature's `display_properties` (defined in the
terra_geocrud serializer module absent from src/): an ordered mapping with
one key per group slug in group order — each holding the subset of the
feature's properties claimed by that group, in the group's declared property
order — followed by the final key `"__default__"` holding every property
claimed by no group.  (`PropertyDisplayRendering` widget substitution is
outside this claim's scope.) -/
def display_properties (groups : List FeaturePropertyDisplayGroup)
    (props : List (String × PropVal)) : List (String × List (String × PropVal)) :=
  groups.map (fun g =>
    (g.slug, g.properties.filterMap (fun q => (props.lookup q).map (fun w => (q, w)))))
  ++ [("__default__",
       props.filter (fun kv => !(groups.any (fun g => g.properties.contains kv.1))))]

theorem map_fst_lookup_filterMap (props : List (String × PropVal)) (ps : List String) :
    (ps.filterMap (fun q => (props.lookup q).map (fun w => (q, w)))).map Prod.fst =
      ps.filter (fun q => (props.lookup q).isSome) := by
  induction ps with
  | nil => rfl
  | cons q rest ih =>
    cases hq : props.lookup q with
    | none => simp [List.filterMap_cons, List.filter_cons, hq, ih]
    | some w => simp [List.filterMap_cons, List.filter_cons, hq, ih]

theorem mem_lookup_filterMap (props : List (String × PropVal)) (ps : List String)
    (p : String) (v : PropVal) :
    ((p, v) ∈ ps.filterMap (fun q => (props.lookup q).map (fun w => (q, w))) ↔
      (p ∈ ps ∧ props.lookup p = some v)) := by
  rw [List.mem_filterMap]
  constructor
  · rintro ⟨q, hq, hmap⟩
    rcases Option.map_eq_some'.mp hmap with ⟨w, hw, heq⟩
    injection heq with h1 h2
    subst h1
    subst h2
    exact ⟨hq, hw⟩
  · rintro ⟨hp, hv⟩
    exact ⟨p, hp, by rw [hv]; rfl⟩

/-- claim C7: `display_properties` is an ordered mapping whose keys are
exactly the group slugs in group order followed by the final key
`"__default__"`; each group entry pairs the slug with exactly those feature
properties listed by the group (in the group's declared order), and the
default entry holds exactly the feature's properties claimed by no group. -/
theorem display_properties_spec (groups : List FeaturePropertyDisplayGroup)
    (props : List (String × PropVal)) :
    ((display_properties groups props).map Prod.fst =
      groups.map (fun g => g.slug) ++ ["__default__"]) ∧
    List.Forall₂
      (fun (grp : FeaturePropertyDisplayGroup)
           (entry : String × List (String × PropVal)) =>
        entry.1 = grp.slug ∧
        entry.2.map Prod.fst = grp.properties.filter (fun q => (props.lookup q).isSome) ∧
        ∀ p v, ((p, v) ∈ entry.2 ↔ (p ∈ grp.properties ∧ props.lookup p = some v)))
      groups (display_properties groups props).dropLast ∧
    (∃ dbag, (display_properties groups props).getLast? = some ("__default__", dbag) ∧
      ∀ p v, ((p, v) ∈ dbag ↔
        ((p, v) ∈ props ∧ ∀ grp ∈ groups, p ∉ grp.properties))) := by
  refine ⟨?_, ?_, ?_⟩
  · unfold display_properties
    simp
  · unfold display_properties
    rw [List.dropLast_concat]
    rw [List.forall₂_map_right_iff]
    rw [List.forall₂_same]
    intro grp _
    exact ⟨rfl, map_fst_lookup_filterMap props grp.properties,
      fun p v => mem_lookup_filterMap props grp.properties p v⟩
  · refine ⟨props.filter
        (fun kv => !(groups.any (fun g => g.properties.contains kv.1))), ?_, ?_⟩
    · unfold display_properties
      rw [List.getLast?_concat]
    · intro p v
      rw [List.mem_filter]
      simp only [Bool.not_eq_eq_eq_not, Bool.not_true, List.any_eq_false,
        Bool.not_eq_true]
      constructor
      · rintro ⟨hmem, hall⟩
        refine ⟨hmem, ?_⟩
        intro grp hgrp hcontra
        have := hall grp hgrp
        rw [List.contains_eq_any_beq] at this
        rw [List.any_eq_false] at this
        exact absurd (by simp) (this p hcontra)
      · rintro ⟨hmem, hall⟩
        refine ⟨hmem, ?_⟩
        intro grp hgrp
        rw [List.contains_eq_any_beq, List.any_eq_false]
        intro q hq
        simp only [beq_iff_eq, Bool.not_eq_true]
        intro contra
        subst contra
        exact absurd hq (hall grp hgrp)

/-- The feature property bag of the repository's grouping test. -/
def feature_props : List (String × PropVal) :=
  [("age", PropVal.n 10), ("name", PropVal.s "x"), ("country", PropVal.s "y")]

theorem display_properties_test_eval :
    display_properties [group_test, group_test2] feature_props =
      [("test", [("age", PropVal.n 10)]),
       ("test2", [("name", PropVal.s "x")]),
       ("__default__", [("country", PropVal.s "y")])] := rfl

/-- Witness for claim C7 on the repository test's feature and groups. -/
theorem display_properties_spec_witness :
    ((display_properties [group_test, group_test2] feature_props).map Prod.fst =
      ["test", "test2", "__default__"]) ∧
    ∃ dbag, (display_properties [group_test, group_test2] feature_props).getLast? =
        some ("__default__", dbag) ∧
      ("country", PropVal.s "y") ∈ dbag ∧ ("age", PropVal.n 10) ∉ dbag := by
  have h := display_properties_spec [group_test, group_test2] feature_props
  refine ⟨by rw [h.1]; rfl, ?_⟩
  rcases h.2.2 with ⟨dbag, hlast, hmem⟩
  refine ⟨dbag, hlast, ?_, ?_⟩
  · exact (hmem "country" (PropVal.s "y")).mpr ⟨by decide, by decide⟩
  · intro hcontra
    exact absurd (by decide : "age" ∈ group_test.properties)
      (((hmem "age" (PropVal.n 10)).mp hcontra).2 group_test (by decide))

/-- A submitted property value: a plain top-level value or a group sub-bag. -/
inductive SubmittedVal where
  | val (v : PropVal)
  | bag (m : List (String × PropVal))
deriving DecidableEq, Repr

/-- Modelled from the spec: create/update property un-grouping (defined in
the terra_geocrud serializer module absent from src/): a grouped submission —
group-slug keys holding sub-bags, plus top-level ungrouped keys — is
flattened to a single property bag merging every group sub-bag and the
top-level keys before it is persisted against the feature. -/
def flatten_properties (slugs : List String)
    (submitted : List (String × SubmittedVal)) : List (String × PropVal) :=
  submitted.flatMap (fun kv =>
    match kv.2 with
    | SubmittedVal.bag m => if slugs.contains kv.1 then m else []
    | SubmittedVal.val v => [(kv.1, v)])

/-- claim C8: for a grouped submission whose sub-bags sit under the view's
group slugs, the persisted flat bag holds a property pair exactly when some
group sub-bag holds it or it is a top-level ungrouped key — the flat merge
of all sub-bags and the top-level bag. -/
theorem flatten_properties_spec (slugs : List String)
    (submitted : List (String × SubmittedVal))
    (hbags : ∀ k m, (k, SubmittedVal.bag m) ∈ submitted → k ∈ slugs) :
    ∀ p v, ((p, v) ∈ flatten_properties slugs submitted ↔
      ((∃ k m, (k, SubmittedVal.bag m) ∈ submitted ∧ (p, v) ∈ m) ∨
        (p, SubmittedVal.val v) ∈ submitted)) := by
  intro p v
  unfold flatten_properties
  rw [List.mem_flatMap]
  constructor
  · rintro ⟨kv, hkv, hmem⟩
    obtain ⟨k, sv⟩ := kv
    cases sv with
    | bag m =>
      simp only at hmem
      by_cases hc : slugs.contains k = true
      · rw [if_pos hc] at hmem
        exact Or.inl ⟨k, m, hkv, hmem⟩
      · rw [if_neg hc] at hmem
        exact absurd hmem (List.not_mem_nil _)
    | val w =>
      simp only [List.mem_singleton] at hmem
      injection hmem with h1 h2
      subst h1
      subst h2
      exact Or.inr hkv
  · rintro (⟨k, m, hkm, hm⟩ | hv)
    · refine ⟨(k, SubmittedVal.bag m), hkm, ?_⟩
      have hc : slugs.contains k = true := by
        rw [List.contains_eq_any_beq, List.any_eq_true]
        exact ⟨k, hbags k m hkm, by simp⟩
      simp only
      rw [if_pos hc]
      exact hm
    · exact ⟨(p, SubmittedVal.val v), hv, List.mem_singleton.mpr rfl⟩

/-- The repository test's grouped create submission. -/
def submitted_grouped_example : List (String × SubmittedVal) :=
  [("test2", SubmittedVal.bag [("name", PropVal.s "toto")]),
   ("test", SubmittedVal.bag [("age", PropVal.n 10)]),
   ("country", SubmittedVal.val (PropVal.s "France"))]

theorem flatten_properties_test_eval :
    flatten_properties ["test", "test2"] submitted_grouped_example =
      [("name", PropVal.s "toto"), ("age", PropVal.n 10),
       ("country", PropVal.s "France")] := rfl

/-- Witness for claim C8: the characterization instantiated on the
repository test's submission at the pair (name, toto). -/
theorem flatten_properties_spec_witness :
    (("name", PropVal.s "toto") ∈
        flatten_properties ["test", "test2"] submitted_grouped_example ↔
      ((∃ k m, (k, SubmittedVal.bag m) ∈ submitted_grouped_example ∧
          ("name", PropVal.s "toto") ∈ m) ∨
        ("name", SubmittedVal.val (PropVal.s "toto")) ∈ submitted_grouped_example)) :=
  flatten_properties_spec ["test", "test2"] submitted_grouped_example
    (by
      intro k m hm
      simp only [submitted_grouped_example, List.mem_cons, List.not_mem_nil,
        or_false] at hm
      rcases hm with h | h | h
      · injection h with h1 h2
        subst h1
        decide
      · injection h with h1 h2
        subst h1
        decide
      · injection h with h1 h2
        exact SubmittedVal.noConfusion h2)
    "name" (PropVal.s "toto")

/-- A persisted `CrudGroupView` row (terra_crud/models.py): unique name and
display order. -/
structure CrudGroupViewRow where
  id : Nat
  name : String
  order : Nat
deriving DecidableEq, Repr

/-- A persisted `CrudView` row (terra_crud/models.py): its foreign key
`group` is declared `on_delete=models.PROTECT`. -/
structure CrudViewRow where
  id : Nat
  name : String
  order : Nat
  group : Nat
deriving DecidableEq, Repr

/-- The relational state the PROTECT rule ranges over. -/
structure CrudDB where
  groups : List CrudGroupViewRow
  views : List CrudViewRow
deriving DecidableEq, Repr

/-- Outcome of a group deletion attempt. -/
inductive DeleteResult where
  | protectedError
  | deleted
deriving DecidableEq, Repr

/-- Embeds deleting a `CrudGroupView` under the PROTECT foreign key declared
on `CrudView.group` (terra_crud/models.py line 27,
`on_delete=models.PROTECT`): the persistence layer raises ProtectedError and
performs no write while any view references the group, and removes the group
row otherwise. -/
def delete_group (db : CrudDB) (gid : Nat) : CrudDB × DeleteResult :=
  if db.views.any (fun v => v.group == gid) then
    (db, DeleteResult.protectedError)
  else
    ({ db with groups := db.groups.filter (fun g => g.id != gid) },
     DeleteResult.deleted)

/-- claim C10: deleting a group referenced by at least one view fails with
ProtectedError and leaves the whole state — the group and all referencing
views — unchanged; deleting a group referenced by no view succeeds, removes
exactly that group's rows, keeps every other group, and leaves the views
unchanged. -/
theorem delete_group_protect (db : CrudDB) (gid : Nat) :
    ((∃ v ∈ db.views, v.group = gid) →
      delete_group db gid = (db, DeleteResult.protectedError)) ∧
    ((∀ v ∈ db.views, v.group ≠ gid) →
      (delete_group db gid).2 = DeleteResult.deleted ∧
      (delete_group db gid).1.views = db.views ∧
      (∀ g ∈ (delete_group db gid).1.groups, g.id ≠ gid) ∧
      (∀ g ∈ db.groups, g.id ≠ gid → g ∈ (delete_group db gid).1.groups)) := by
  constructor
  · rintro ⟨v, hv, hg⟩
    have hany : db.views.any (fun v => v.group == gid) = true := by
      rw [List.any_eq_true]
      exact ⟨v, hv, by simp [hg]⟩
    unfold delete_group
    rw [if_pos hany]
  · intro hnone
    have hany : db.views.any (fun v => v.group == gid) = false := by
      rw [List.any_eq_false]
      intro v hv
      simp only [beq_iff_eq]
      exact hnone v hv
    unfold delete_group
    rw [if_neg (by simp [hany])]
    refine ⟨rfl, rfl, ?_, ?_⟩
    · intro g hg
      rcases List.mem_filter.mp hg with ⟨_, hid⟩
      simpa using hid
    · intro g hg hid
      exact List.mem_filter.mpr ⟨hg, by simpa using hid⟩

/-- Two groups and one view referencing the first. -/
def sample_crud_db : CrudDB :=
  { groups := [{ id := 1, name := "group 1", order := 0 },
               { id := 2, name := "group 2", order := 1 }],
    views := [{ id := 10, name := "View 1", order := 0, group := 1 }] }

/-- Witness for claim C10: deleting the referenced group fails and changes
nothing; deleting the unreferenced group succeeds and keeps the views. -/
theorem delete_group_protect_witness :
    delete_group sample_crud_db 1 = (sample_crud_db, DeleteResult.protectedError) ∧
    (delete_group sample_crud_db 2).2 = DeleteResult.deleted ∧
    (delete_group sample_crud_db 2).1.views = sample_crud_db.views ∧
    (∀ g ∈ (delete_group sample_crud_db 2).1.groups, g.id ≠ 2) :=
  ⟨(delete_group_protect sample_crud_db 1).1
      ⟨{ id := 10, name := "View 1", order := 0, group := 1 }, by decide, rfl⟩,
   ((delete_group_protect sample_crud_db 2).2 (by decide)).1,
   ((delete_group_protect sample_crud_db 2).2 (by decide)).2.1,
   ((delete_group_protect sample_crud_db 2).2 (by decide)).2.2.1⟩
